import Mathlib

set_option maxRecDepth 40000

/-!
Verification of the backup manager and the cover fetcher of the library
application (source: app.py).

The two facilities are embedded shallowly:

Backup manager. The filesystem that the backup code touches is modelled by
the structure BSt: the live database file (an optional byte list, absent
when the file does not exist) and the backup directory tree, an association
list from category subdirectory name to its contents (snapshot files with
name, modification time and compressed payload, plus sidecar metadata file
names). I/O and compression failures are injected through a CreateEnv
record: a failed gzip copy leaves a partial snapshot file, a failed
metadata dump leaves the snapshot without a sidecar, and each unlink during
pruning can be made to fail by name. Python list.sort with a key and
reverse=True is a stable descending sort; it is embedded as
List.insertionSort with the relation snapGE (descending modification
time), which is likewise stable and total. Timestamps are naturals.

Cover fetcher. The books table is a list of rows (localnumber, isbn,
cover_image); the NO_COVER tombstone is the byte string of that marker.
The process-wide rate-limit clock time.time() is a float in the source; it
is embedded as an integer count of milliseconds, so the constant
COVER_RATE_LIMIT = 0.5 seconds becomes 500. The non-blocking lock
acquisition, the clock readings and the remote HTTP outcome of one request
are injected through a FetchEnv record; book_cover returns its HTTP-level
result, whether the network was touched, and the new state.
-/

/-- Byte strings are modelled as lists of naturals. -/
abbrev Bytes := List Nat

/-- Compressed payload of a snapshot file: a complete gzip stream of the
original content, or a truncated stream that decodes only to a prefix
before raising (written are the bytes that decompression yields before the
failure). -/
inductive GzData where
  | ok (content : Bytes)
  | corrupt (written : Bytes)
deriving DecidableEq, Repr

/-- A snapshot file in a category subdirectory: file name, filesystem
modification time, and compressed payload. -/
structure Snap where
  name : String
  mtime : Nat
  data : GzData
deriving DecidableEq, Repr

/-- Contents of one category subdirectory: the snapshot files and the names
of the sidecar metadata files. -/
structure CatDir where
  snaps : List Snap
  sidecars : List String
deriving DecidableEq, Repr

/-- The filesystem state seen by the backup manager: the live database file
(none when absent) and the backup directory tree as an association list
from category name to directory contents; a category absent from the list
is a directory that does not exist. -/
structure BSt where
  store : Option Bytes
  cats : List (String × CatDir)
deriving DecidableEq, Repr

def lookupCat : List (String × CatDir) → String → Option CatDir
  | [], _ => none
  | (t, d) :: rest, u => if t = u then some d else lookupCat rest u

def setCatList : List (String × CatDir) → String → CatDir → List (String × CatDir)
  | [], u, d => [(u, d)]
  | (t, e) :: rest, u, d => if t = u then (u, d) :: rest else (t, e) :: setCatList rest u d

/-- Directory contents of a category; a missing directory reads as empty. -/
def BSt.getCat (s : BSt) (t : String) : CatDir := (lookupCat s.cats t).getD ⟨[], []⟩

def BSt.dirExists (s : BSt) (t : String) : Bool := (lookupCat s.cats t).isSome

def BSt.setCat (s : BSt) (t : String) (d : CatDir) : BSt :=
  { s with cats := setCatList s.cats t d }

/-- Embedding of pathlib mkdir with exist_ok=True for one category
subdirectory. -/
def BSt.ensureDir (s : BSt) (t : String) : BSt :=
  if (lookupCat s.cats t).isSome then s else { s with cats := s.cats ++ [(t, ⟨[], []⟩)] }

/-- Source constants of the backup configuration. -/
def MAX_DAILY_BACKUPS : Nat := 7

def MAX_FREQUENT_BACKUPS : Nat := 24

def MAX_EVENT_BACKUPS : Nat := 10

def BACKUP_ENABLED : Bool := true

/-- Embedding of ensure_backup_directory: create the four category
subdirectories when absent. -/
def ensure_backup_directory (s : BSt) : BSt :=
  (((s.ensureDir "daily").ensureDir "frequent").ensureDir "events").ensureDir "manual"

/-- Per-category retention limits, as the dict lookup with default 5 in
cleanup_old_backups. -/
def maxBackups (backup_type : String) : Nat :=
  if backup_type = "daily" then MAX_DAILY_BACKUPS
  else if backup_type = "frequent" then MAX_FREQUENT_BACKUPS
  else if backup_type = "events" then MAX_EVENT_BACKUPS
  else if backup_type = "manual" then 5
  else 5

/-- Embedding of the glob pattern library_backup_*.db.gz used when listing
snapshot files. -/
def isBackupFile (name : String) : Bool :=
  "library_backup_".toList.isPrefixOf name.toList && ".db.gz".toList.isSuffixOf name.toList

/-- Descending order on modification time, the sort key used by
cleanup_old_backups (key=mtime, reverse=True). -/
def snapGE (a b : Snap) : Prop := b.mtime ≤ a.mtime

instance snapGE.decRel : DecidableRel snapGE := fun a b => Nat.decLe b.mtime a.mtime

instance snapGE.total : IsTotal Snap snapGE := ⟨fun a b => Nat.le_total b.mtime a.mtime⟩

instance snapGE.trans : IsTrans Snap snapGE :=
  ⟨fun _ _ _ h1 h2 => Nat.le_trans h2 h1⟩

/-- Removal of one snapshot file and of its sidecar metadata file, as the
unlink calls in the pruning loop. -/
def removeSnap (f : Snap) (d : CatDir) : CatDir :=
  ⟨d.snaps.filter (fun g => !(g.name == f.name)),
   d.sidecars.filter (fun s => !(s == f.name ++ ".json"))⟩

/-- The pruning loop of cleanup_old_backups over the files beyond the
retention limit: each iteration is wrapped in its own try/except, so a
failed unlink (a name listed in deleteFails) is skipped and the loop
continues with the remaining files. -/
def pruneLoop (deleteFails : List String) : List Snap → CatDir → CatDir
  | [], d => d
  | f :: rest, d =>
    if f.name ∈ deleteFails then pruneLoop deleteFails rest d
    else pruneLoop deleteFails rest (removeSnap f d)

/-- Pruning of one category directory: list the files matching the glob,
sort by modification time descending, keep the first maxBackups, delete the
remainder together with their sidecars (best effort). -/
def cleanupDir (deleteFails : List String) (backup_type : String) (d : CatDir) : CatDir :=
  let backup_files := d.snaps.filter (fun f => isBackupFile f.name)
  let sorted := backup_files.insertionSort snapGE
  pruneLoop deleteFails (sorted.drop (maxBackups backup_type)) d

/-- Embedding of cleanup_old_backups: a missing category subdirectory
returns immediately, otherwise the directory is pruned in place. -/
def cleanup_old_backups (deleteFails : List String) (s : BSt) (backup_type : String) : BSt :=
  match lookupCat s.cats backup_type with
  | none => s
  | some d => s.setCat backup_type (cleanupDir deleteFails backup_type d)

/-- A snapshot name is hit by the pruning loop over the file list l when
some file of l carries that name and its unlink is not failing. Used to
characterize pruneLoop as a filter. -/
def hitBy (fails : List String) (l : List Snap) (nm : String) : Bool :=
  l.any (fun f => !(decide (f.name ∈ fails)) && f.name == nm)

/-- A sidecar file name is removed by the pruning loop over l when some
non-failing file of l owns it. -/
def hitSidecar (fails : List String) (l : List Snap) (sc : String) : Bool :=
  l.any (fun f => !(decide (f.name ∈ fails)) && (f.name ++ ".json") == sc)

/-- Python str.rstrip restricted to the characters that survive the
sanitizing filter: drop trailing whitespace. -/
def rstripChars (l : List Char) : List Char :=
  (l.reverse.dropWhile (fun c => c.isWhitespace)).reverse

/-- Sanitized description as computed in create_backup: keep alphanumeric
characters, spaces, underscores and hyphens, strip trailing whitespace,
truncate to 30 characters. -/
def pythonSafeDesc (d : String) : String :=
  ⟨(rstripChars (d.toList.filter
      (fun c => c.isAlphanum || c == ' ' || c == '_' || c == '-'))).take 30⟩

/-- Replacement of every space by an underscore, as the str.replace call in
the filename f-string. -/
def spaceToUnderscore (s : String) : String :=
  ⟨s.toList.map (fun c => if c = ' ' then '_' else c)⟩

/-- Snapshot file name built by create_backup. The strftime timestamp is
abstracted as the decimal print of the clock value; a falsy description
(absent or empty) yields the bare prefix-and-timestamp name. -/
def backupFilename (now : Nat) (event_description : Option String) : String :=
  match event_description with
  | none => "library_backup_" ++ toString now ++ ".db.gz"
  | some d =>
    if d = "" then "library_backup_" ++ toString now ++ ".db.gz"
    else "library_backup_" ++ toString now ++ "_" ++
      spaceToUnderscore (pythonSafeDesc d) ++ ".db.gz"

/-- Result of create_backup, distinguishing the failure exits of the
source: the global toggle off, the database file absent (SourceMissing in
the design vocabulary), or an I/O, compression or database failure caught
by the enclosing try/except (StorageError). -/
inductive CreateResult where
  | ok
  | disabled
  | sourceMissing
  | storageError
deriving DecidableEq, Repr

/-- Failure injection for one create/prune/restore run: the clock value,
whether the gzip copy completes, the bytes a dying gzip copy leaves in the
partial snapshot file, whether the metadata dump completes, and the names
whose unlink fails during pruning. -/
structure CreateEnv where
  now : Nat
  compressOk : Bool
  corruptWritten : Bytes
  metaOk : Bool
  deleteFails : List String
deriving DecidableEq, Repr

/-- Embedding of create_backup. The source order is kept: the enabled
check, ensure_backup_directory, the database existence check, the
per-category mkdir, the filename, the gzip copy, the metadata sidecar dump,
then pruning. A gzip copy that dies leaves a partial snapshot file behind
(the with-blocks have already created it) and the exception is caught at
the function boundary. -/
def create_backup (env : CreateEnv) (s : BSt) (backup_type : String)
    (event_description : Option String) : CreateResult × BSt :=
  if BACKUP_ENABLED = false then (.disabled, s) else
  let s1 := ensure_backup_directory s
  match s1.store with
  | none => (.sourceMissing, s1)
  | some content =>
    let s2 := s1.ensureDir backup_type
    let fname := backupFilename env.now event_description
    let dir := s2.getCat backup_type
    if env.compressOk = false then
      (.storageError, s2.setCat backup_type
        { dir with snaps := dir.snaps ++ [⟨fname, env.now, .corrupt env.corruptWritten⟩] })
    else
      let dir1 : CatDir := { dir with snaps := dir.snaps ++ [⟨fname, env.now, .ok content⟩] }
      if env.metaOk = false then (.storageError, s2.setCat backup_type dir1)
      else
        let dir2 : CatDir := { dir1 with sidecars := dir1.sidecars ++ [fname ++ ".json"] }
        let s3 := s2.setCat backup_type dir2
        (.ok, cleanup_old_backups env.deleteFails s3 backup_type)

/-- Observable actions of a restore run, recorded in source order: the
safety snapshot call with its category and description, and each write of
decompressed bytes over the live store file. -/
inductive Act where
  | safetySnapshot (category : String) (description : String)
  | overwriteStore (content : Bytes)
deriving DecidableEq, Repr

/-- Embedding of restore_backup. The snapshot path is the pair of its
category subdirectory and file name. After the existence check the safety
snapshot is taken, then the file is reopened and decompressed over the
live store, which the source opens in truncating write mode: a corrupt
stream leaves only the decoded prefix in the store and the exception is
caught at the boundary. -/
def restore_backup (env : CreateEnv) (s : BSt) (cat : String) (fname : String) :
    (Bool × String) × BSt × List Act :=
  match (s.getCat cat).snaps.find? (fun f => f.name == fname) with
  | none => ((false, "Backup file not found"), s, [])
  | some _ =>
    let s1 := (create_backup env s "events" (some "pre_restore_backup")).2
    match (s1.getCat cat).snaps.find? (fun f => f.name == fname) with
    | none =>
      ((false, "No such file or directory"), s1,
        [Act.safetySnapshot "events" "pre_restore_backup"])
    | some snap =>
      match snap.data with
      | .ok content =>
        ((true, "Database restored successfully"),
         { s1 with store := some content },
         [Act.safetySnapshot "events" "pre_restore_backup", Act.overwriteStore content])
      | .corrupt written =>
        ((false, "compressed file ended before the end-of-stream marker was reached"),
         { s1 with store := some written },
         [Act.safetySnapshot "events" "pre_restore_backup", Act.overwriteStore written])

/-- One row of the listing produced by get_backup_list: path, category,
timestamp (the filesystem one, in the clock domain of Snap.mtime), and
whether a sidecar was found and merged. -/
structure BackupEntry where
  file_path : String
  backup_type : String
  timestamp : Nat
  hasMetadata : Bool
deriving DecidableEq, Repr

/-- Descending order on the timestamp field, the sort key of
get_backup_list (reverse=True). -/
def entryGE (a b : BackupEntry) : Prop := b.timestamp ≤ a.timestamp

instance entryGE.decRel : DecidableRel entryGE := fun a b => Nat.decLe b.timestamp a.timestamp

instance entryGE.total : IsTotal BackupEntry entryGE :=
  ⟨fun a b => Nat.le_total b.timestamp a.timestamp⟩

instance entryGE.trans : IsTrans BackupEntry entryGE :=
  ⟨fun _ _ _ h1 h2 => Nat.le_trans h2 h1⟩

/-- Embedding of get_backup_list: the whole body runs under a try/except
returning the empty list, modelled by the injected ioFail flag; otherwise
every glob match across the four categories becomes an entry (sidecar
metadata merged when present) and the entries are sorted by timestamp
descending. -/
def get_backup_list (ioFail : Bool) (s : BSt) : List BackupEntry :=
  if ioFail then []
  else
    let entries := ["daily", "frequent", "events", "manual"].flatMap (fun t =>
      ((s.getCat t).snaps.filter (fun f => isBackupFile f.name)).map (fun f =>
        ⟨t ++ "/" ++ f.name, t, f.mtime, decide ((f.name ++ ".json") ∈ (s.getCat t).sidecars)⟩))
    entries.insertionSort entryGE

/-- The NO_COVER marker bytes stored in the cover_image column as the
negative-cache tombstone. -/
def NO_COVER : Bytes := [78, 79, 95, 67, 79, 86, 69, 82]

/-- One row of the books table as read by book_cover. -/
structure Book where
  localnumber : String
  isbn : Option String
  cover_image : Option Bytes
deriving DecidableEq, Repr

/-- Process state of the cover fetcher: the books table and the global
last_cover_download_time clock, in integer milliseconds. -/
structure CoverState where
  books : List Book
  lastDownloadTime : Int
deriving DecidableEq, Repr

/-- Minimum interval between remote cover downloads: 0.5 seconds in the
source, in milliseconds here. -/
def COVER_RATE_LIMIT : Int := 500

/-- Outcome of the one guarded HTTP GET: a status code with a body, or a
requests exception (timeout or network failure). -/
inductive RemoteResponse where
  | status (code : Nat) (body : Bytes)
  | netError
deriving DecidableEq, Repr

/-- Injected nondeterminism of one book_cover call: whether the
non-blocking lock acquisition succeeds, the clock at the rate check and at
the post-download update (milliseconds), and the remote outcome were the
network reached. -/
structure FetchEnv where
  lockFree : Bool
  now : Int
  now2 : Int
  remote : RemoteResponse
deriving DecidableEq, Repr

/-- HTTP-level result of a book_cover call, one constructor per return
site of the source. -/
inductive CoverResult where
  | bookNotFound
  | served (body : Bytes)
  | noCoverAvailable
  | rateLimited
  | downloadInProgress
  | serviceUnavailable
deriving DecidableEq, Repr

/-- Result record of one book_cover call: the response, whether
requests.get was invoked, and the state after the call. -/
structure CoverOut where
  result : CoverResult
  networkCalled : Bool
  state : CoverState
deriving DecidableEq, Repr

/-- Python truthiness of an optional byte string: NULL and the empty
string are falsy. -/
def truthyBytes : Option Bytes → Bool
  | none => false
  | some b => !(b.isEmpty)

def findBook (books : List Book) (ln : String) : Option Book :=
  books.find? (fun b => b.localnumber == ln)

/-- The UPDATE of the cover_image column for one localnumber. -/
def updateCover (books : List Book) (ln : String) (c : Option Bytes) : List Book :=
  books.map (fun b => if b.localnumber = ln then { b with cover_image := c } else b)

/-- Embedding of the book_cover route. Branch order follows the source:
missing row; cached non-tombstone cover served; tombstone refused; then,
with a truthy isbn, the non-blocking lock, the rate check against
COVER_RATE_LIMIT, and the remote request whose 200-with-plausible-body,
404, other-status and exception arms update the row and the clock exactly
as the source does; a falsy isbn ends in the final no-cover return. -/
def book_cover (env : FetchEnv) (st : CoverState) (localnumber : String) : CoverOut :=
  match findBook st.books localnumber with
  | none => ⟨.bookNotFound, false, st⟩
  | some book =>
    if truthyBytes book.cover_image && !(book.cover_image == some NO_COVER) then
      ⟨.served (book.cover_image.getD []), false, st⟩
    else if book.cover_image == some NO_COVER then
      ⟨.noCoverAvailable, false, st⟩
    else
      match book.isbn with
      | some isbn =>
        if isbn = "" then ⟨.noCoverAvailable, false, st⟩
        else if env.lockFree = false then ⟨.downloadInProgress, false, st⟩
        else if COVER_RATE_LIMIT ≤ env.now - st.lastDownloadTime then
          match env.remote with
          | .netError => ⟨.serviceUnavailable, true, st⟩
          | .status code body =>
            if code = 200 ∧ 500 ≤ body.length then
              ⟨.served body, true,
                ⟨updateCover st.books localnumber (some body), env.now2⟩⟩
            else if code = 404 then
              ⟨.noCoverAvailable, true,
                ⟨updateCover st.books localnumber (some NO_COVER), env.now2⟩⟩
            else
              ⟨.serviceUnavailable, true, st⟩
        else ⟨.rateLimited, false, st⟩
      | none => ⟨.noCoverAvailable, false, st⟩

/-- A catalog identifier whose row is cached as the tombstone. -/
def tombstonedB (st : CoverState) (ln : String) : Bool :=
  match findBook st.books ln with
  | some b => b.cover_image == some NO_COVER
  | none => false

/-- Trace of a sequence of book_cover calls: for each call, the
localnumber, whether the network was touched, and the result, threading
the state. -/
def runTrace : CoverState → List (FetchEnv × String) → List (String × Bool × CoverResult)
  | _, [] => []
  | st, (env, ln) :: rest =>
    let out := book_cover env st ln
    (ln, out.networkCalled, out.result) :: runTrace out.state rest

example : backupFilename 5 (some "abc ") = "library_backup_5_abc.db.gz" := by decide

example : backupFilename 5 none = "library_backup_5.db.gz" := by decide

example : maxBackups "frequent" = 24 := by decide

/-- Description transformation exactly as the claim words it, for
comparison with the source pipeline: filter to the allowed characters,
truncate to 30 characters, replace spaces by underscores — with no
trailing-whitespace strip. -/
def specSanitizedDesc (d : String) : String :=
  spaceToUnderscore ⟨(d.toList.filter
    (fun c => c.isAlphanum || c == ' ' || c == '_' || c == '-')).take 30⟩

/-- Concrete backup filesystem used by the closed witness statements: a
present store and a manual category already holding five snapshots with
their sidecars. -/
def stW : BSt :=
  ⟨some [1, 2, 3],
   [("manual", ⟨[⟨"library_backup_1.db.gz", 1, .ok [9]⟩,
                 ⟨"library_backup_2.db.gz", 2, .ok [9]⟩,
                 ⟨"library_backup_3.db.gz", 3, .ok [9]⟩,
                 ⟨"library_backup_4.db.gz", 4, .ok [9]⟩,
                 ⟨"library_backup_5.db.gz", 5, .ok [9]⟩],
                ["library_backup_1.db.gz.json", "library_backup_2.db.gz.json",
                 "library_backup_3.db.gz.json", "library_backup_4.db.gz.json",
                 "library_backup_5.db.gz.json"]⟩)]⟩

/-- Concrete state whose only manual snapshot is a truncated gzip stream
that decodes to nothing before raising. -/
def stC : BSt :=
  ⟨some [1, 2, 3], [("manual", ⟨[⟨"library_backup_1.db.gz", 1, .corrupt []⟩], []⟩)]⟩

/-- Failure-free environment used by the closed witness statements. -/
def envW : CreateEnv := ⟨9, true, [], true, []⟩

/-- Concrete cover-fetcher state used by the closed witness statements:
one tombstoned row and one row with no cached cover. -/
def cstW : CoverState := ⟨[⟨"b1", some "123", some NO_COVER⟩, ⟨"b2", some "456", none⟩], 0⟩

/-- Concrete call environment used by the closed witness statements. -/
def fenvW : FetchEnv := ⟨true, 600, 700, .status 200 (List.replicate 600 7)⟩

-- Helper lemmas about the cover fetcher.

theorem book_cover_tombstone (env : FetchEnv) (st : CoverState) (ln : String)
    (h : tombstonedB st ln = true) :
    book_cover env st ln = ⟨CoverResult.noCoverAvailable, false, st⟩ := by
  unfold tombstonedB at h
  cases hf : findBook st.books ln with
  | none => rw [hf] at h; cases h
  | some b =>
    rw [hf] at h
    have hb : b.cover_image = some NO_COVER := by simpa using h
    unfold book_cover
    rw [hf]
    dsimp only
    rw [hb]
    simp [truthyBytes, NO_COVER]

theorem findBook_updateCover_ne (books : List Book) (ln ln' : String) (c : Option Bytes)
    (h : ln ≠ ln') :
    findBook (updateCover books ln' c) ln = findBook books ln := by
  induction books with
  | nil => rfl
  | cons b bs ih =>
    by_cases hb : b.localnumber = ln'
    · have hbl : b.localnumber ≠ ln := fun hh => h (hh.symm.trans hb)
      unfold findBook updateCover
      simp only [List.map_cons, if_pos hb]
      rw [List.find?_cons_of_neg _ (by simpa using hbl),
        List.find?_cons_of_neg _ (by simpa using hbl)]
      exact ih
    · by_cases hbl : b.localnumber = ln
      · unfold findBook updateCover
        simp only [List.map_cons, if_neg hb]
        rw [List.find?_cons_of_pos _ (by simpa using hbl),
          List.find?_cons_of_pos _ (by simpa using hbl)]
      · unfold findBook updateCover
        simp only [List.map_cons, if_neg hb]
        rw [List.find?_cons_of_neg _ (by simpa using hbl),
          List.find?_cons_of_neg _ (by simpa using hbl)]
        exact ih

theorem book_cover_state_cases (env : FetchEnv) (st : CoverState) (ln : String) :
    (book_cover env st ln).state = st ∨
    ∃ c t, (book_cover env st ln).state = ⟨updateCover st.books ln c, t⟩ := by
  unfold book_cover
  cases findBook st.books ln with
  | none => exact Or.inl rfl
  | some book =>
    dsimp only
    split
    · exact Or.inl rfl
    split
    · exact Or.inl rfl
    cases book.isbn with
    | none => exact Or.inl rfl
    | some i =>
      dsimp only
      split
      · exact Or.inl rfl
      split
      · exact Or.inl rfl
      split
      · cases env.remote with
        | netError => exact Or.inl rfl
        | status code body =>
          dsimp only
          split
          · exact Or.inr ⟨some body, env.now2, rfl⟩
          split
          · exact Or.inr ⟨some NO_COVER, env.now2, rfl⟩
          · exact Or.inl rfl
      · exact Or.inl rfl

theorem tombstone_preserved (env : FetchEnv) (st : CoverState) (ln ln' : String)
    (h : tombstonedB st ln = true) :
    tombstonedB (book_cover env st ln').state ln = true := by
  by_cases hln : ln' = ln
  · subst hln
    rw [book_cover_tombstone env st ln' h]
    exact h
  · rcases book_cover_state_cases env st ln' with hs | ⟨c, t, hs⟩
    · rw [hs]; exact h
    · rw [hs]
      unfold tombstonedB at h ⊢
      rw [findBook_updateCover_ne st.books ln ln' c (fun hh => hln hh.symm)]
      exact h

/-- C2: for every catalog item whose cache entry is the tombstone marker,
every call to get for that item fails with NoCoverAvailable and issues no
network request; once a tombstone is persisted for an identifier, no call
of any subsequent sequence of get calls on that identifier touches the
network or returns anything but NoCoverAvailable. -/
theorem C2_tombstone_never_refetched (st : CoverState) (ln : String)
    (h : tombstonedB st ln = true) :
    (∀ env : FetchEnv, (book_cover env st ln).result = CoverResult.noCoverAvailable ∧
      (book_cover env st ln).networkCalled = false) ∧
    (∀ calls : List (FetchEnv × String), ∀ e ∈ runTrace st calls,
      e.1 = ln → e.2.1 = false ∧ e.2.2 = CoverResult.noCoverAvailable) := by
  constructor
  · intro env
    rw [book_cover_tombstone env st ln h]
    exact ⟨rfl, rfl⟩
  · intro calls
    induction calls generalizing st with
    | nil => intro e he; cases he
    | cons p rest ih =>
      intro e he hln
      obtain ⟨env, ln'⟩ := p
      simp only [runTrace, List.mem_cons] at he
      rcases he with he | he
      · subst he
        simp only at hln
        subst hln
        rw [book_cover_tombstone env st ln' h]
        exact ⟨rfl, rfl⟩
      · exact ih (book_cover env st ln').state (tombstone_preserved env st ln ln' h) e he hln

/-- Closed instance of C2: the tombstoned row b1 of the concrete state. -/
theorem C2_witness :
    tombstonedB cstW "b1" = true ∧
    (book_cover fenvW cstW "b1").result = CoverResult.noCoverAvailable ∧
    (book_cover fenvW cstW "b1").networkCalled = false :=
  ⟨by decide,
   ((C2_tombstone_never_refetched cstW "b1" (by decide)).1 fenvW).1,
   ((C2_tombstone_never_refetched cstW "b1" (by decide)).1 fenvW).2⟩

/-- C6: a guarded remote fetch that ends in a remote error other than a
confirmed 404 (a non-2xx status other than 404, or a timeout or network
failure) persists neither a tombstone nor a cache entry, leaves the
rate-limit clock untouched, and fails with ServiceUnavailable (the 503
return of the source). -/
theorem C6_remote_error_transient (env : FetchEnv) (st : CoverState) (ln : String) (book : Book)
    (hb : findBook st.books ln = some book)
    (hcov : book.cover_image = none ∨ book.cover_image = some [])
    (hisbn : ∃ i, book.isbn = some i ∧ i ≠ "")
    (hlock : env.lockFree = true)
    (htime : COVER_RATE_LIMIT ≤ env.now - st.lastDownloadTime)
    (herr : env.remote = RemoteResponse.netError ∨
      ∃ code body, env.remote = RemoteResponse.status code body ∧
        ¬(200 ≤ code ∧ code < 300) ∧ code ≠ 404) :
    book_cover env st ln = ⟨CoverResult.serviceUnavailable, true, st⟩ := by
  obtain ⟨i, hi, hine⟩ := hisbn
  unfold book_cover
  rw [hb]
  dsimp only
  rcases herr with hr | ⟨code, body, hr, h2xx, h404⟩
  · rcases hcov with hc | hc <;> rw [hc, hi, hr] <;>
      simp [truthyBytes, NO_COVER, hine, hlock, htime]
  · have hcond : ¬(code = 200 ∧ 500 ≤ List.length body) := by
      rintro ⟨h1, _⟩
      exact h2xx (by omega)
    rcases hcov with hc | hc <;> rw [hc, hi, hr] <;>
      simp [truthyBytes, NO_COVER, hine, hlock, htime, hcond, h404]

/-- Closed instance of C6: a 500 response for the uncached row b2 leaves
the state (rows and rate-limit clock) untouched and returns the 503. -/
theorem C6_witness :
    findBook cstW.books "b2" = some ⟨"b2", some "456", none⟩ ∧
    book_cover ⟨true, 600, 700, RemoteResponse.status 500 []⟩ cstW "b2" =
      ⟨CoverResult.serviceUnavailable, true, cstW⟩ :=
  ⟨by decide,
   C6_remote_error_transient ⟨true, 600, 700, RemoteResponse.status 500 []⟩ cstW "b2"
     ⟨"b2", some "456", none⟩ (by decide) (Or.inl rfl) ⟨"456", rfl, by decide⟩ rfl
     (by decide) (Or.inr ⟨500, [], rfl, by omega, by decide⟩)⟩

/-- C7: a get call that acquires the guard while less than the minimum
interval has elapsed since the rate-limit clock fails with RateLimited,
makes no network call, and leaves the state, in particular the rate-limit
clock, unchanged. -/
theorem C7_rate_limited (env : FetchEnv) (st : CoverState) (ln : String) (book : Book)
    (hb : findBook st.books ln = some book)
    (hcov : book.cover_image = none ∨ book.cover_image = some [])
    (hisbn : ∃ i, book.isbn = some i ∧ i ≠ "")
    (hlock : env.lockFree = true)
    (htime : env.now - st.lastDownloadTime < COVER_RATE_LIMIT) :
    book_cover env st ln = ⟨CoverResult.rateLimited, false, st⟩ := by
  obtain ⟨i, hi, hine⟩ := hisbn
  unfold book_cover
  rw [hb]
  dsimp only
  rcases hcov with hc | hc <;> rw [hc, hi] <;>
    simp [truthyBytes, NO_COVER, hine, hlock, not_le.mpr htime]

/-- Closed instance of C7: 100 milliseconds elapsed is below the 500
millisecond minimum, so the call is rate limited and changes nothing. -/
theorem C7_witness :
    findBook cstW.books "b2" = some ⟨"b2", some "456", none⟩ ∧
    book_cover ⟨true, 100, 900, RemoteResponse.status 200 []⟩ cstW "b2" =
      ⟨CoverResult.rateLimited, false, cstW⟩ :=
  ⟨by decide,
   C7_rate_limited ⟨true, 100, 900, RemoteResponse.status 200 []⟩ cstW "b2"
     ⟨"b2", some "456", none⟩ (by decide) (Or.inl rfl) ⟨"456", rfl, by decide⟩ rfl
     (by decide)⟩

/-- C10: a 200 response whose body is smaller than 500 bytes is treated as
transient: no bytes and no tombstone are persisted, the rate-limit clock is
not updated, and the call fails with ServiceUnavailable. -/
theorem C10_undersized_body_transient (env : FetchEnv) (st : CoverState) (ln : String)
    (book : Book) (body : Bytes)
    (hb : findBook st.books ln = some book)
    (hcov : book.cover_image = none ∨ book.cover_image = some [])
    (hisbn : ∃ i, book.isbn = some i ∧ i ≠ "")
    (hlock : env.lockFree = true)
    (htime : COVER_RATE_LIMIT ≤ env.now - st.lastDownloadTime)
    (hresp : env.remote = RemoteResponse.status 200 body)
    (hsize : body.length < 500) :
    book_cover env st ln = ⟨CoverResult.serviceUnavailable, true, st⟩ := by
  obtain ⟨i, hi, hine⟩ := hisbn
  have hcond : ¬((200 : Nat) = 200 ∧ 500 ≤ List.length body) := by
    rintro ⟨-, h500⟩
    omega
  unfold book_cover
  rw [hb]
  dsimp only
  rcases hcov with hc | hc <;> rw [hc, hi, hresp] <;>
    simp [truthyBytes, NO_COVER, hine, hlock, htime, hcond, hsize]

/-- Closed instance of C10: a 200 response with a 3 byte body for the
uncached row b2 yields the 503 and leaves the state untouched. -/
theorem C10_witness :
    findBook cstW.books "b2" = some ⟨"b2", some "456", none⟩ ∧
    book_cover ⟨true, 600, 700, RemoteResponse.status 200 [1, 2, 3]⟩ cstW "b2" =
      ⟨CoverResult.serviceUnavailable, true, cstW⟩ :=
  ⟨by decide,
   C10_undersized_body_transient ⟨true, 600, 700, RemoteResponse.status 200 [1, 2, 3]⟩
     cstW "b2" ⟨"b2", some "456", none⟩ [1, 2, 3] (by decide) (Or.inl rfl)
     ⟨"456", rfl, by decide⟩ rfl (by decide) rfl (by decide)⟩

-- Helper lemmas about the backup filesystem state.

theorem lookupCat_setCatList (l : List (String × CatDir)) (u v : String) (d : CatDir) :
    lookupCat (setCatList l u d) v = if u = v then some d else lookupCat l v := by
  induction l with
  | nil => simp [setCatList, lookupCat]
  | cons p rest ih =>
    obtain ⟨t, e⟩ := p
    simp only [setCatList]
    by_cases ht : t = u
    · subst ht
      rw [if_pos rfl]
      simp only [lookupCat]
      by_cases hv : t = v
      · rw [if_pos hv, if_pos hv]
      · rw [if_neg hv, if_neg hv, if_neg hv]
    · rw [if_neg ht]
      simp only [lookupCat]
      by_cases htv : t = v
      · have huv : ¬u = v := fun h => ht (htv.trans h.symm)
        rw [if_pos htv, if_neg huv, if_pos htv]
      · rw [if_neg htv, if_neg htv, ih]

theorem lookupCat_append_single (l : List (String × CatDir)) (u v : String) (d : CatDir) :
    lookupCat (l ++ [(u, d)]) v =
      match lookupCat l v with
      | some x => some x
      | none => if u = v then some d else none := by
  induction l with
  | nil => rfl
  | cons p rest ih =>
    obtain ⟨t, e⟩ := p
    simp only [List.cons_append, lookupCat]
    by_cases htv : t = v
    · rw [if_pos htv, if_pos htv]
    · rw [if_neg htv, if_neg htv]
      exact ih

theorem getCat_setCat (s : BSt) (u v : String) (d : CatDir) :
    (s.setCat u d).getCat v = if u = v then d else s.getCat v := by
  unfold BSt.setCat BSt.getCat
  simp only [lookupCat_setCatList]
  split <;> rfl

theorem getCat_ensureDir (s : BSt) (u v : String) :
    (s.ensureDir u).getCat v = s.getCat v := by
  unfold BSt.ensureDir BSt.getCat
  split <;> rename_i h
  · rfl
  · simp only [lookupCat_append_single]
    cases hl : lookupCat s.cats v with
    | some x => rfl
    | none =>
      by_cases huv : u = v
      · rw [if_pos huv]
        subst huv
        rw [Option.not_isSome_iff_eq_none] at h
        rfl
      · rw [if_neg huv]

theorem store_setCat (s : BSt) (u : String) (d : CatDir) : (s.setCat u d).store = s.store := rfl

theorem store_ensureDir (s : BSt) (u : String) : (s.ensureDir u).store = s.store := by
  unfold BSt.ensureDir
  split <;> rfl

theorem store_ensure_backup_directory (s : BSt) :
    (ensure_backup_directory s).store = s.store := by
  unfold ensure_backup_directory
  rw [store_ensureDir, store_ensureDir, store_ensureDir, store_ensureDir]

theorem getCat_ensure_backup_directory (s : BSt) (v : String) :
    (ensure_backup_directory s).getCat v = s.getCat v := by
  unfold ensure_backup_directory
  rw [getCat_ensureDir, getCat_ensureDir, getCat_ensureDir, getCat_ensureDir]

theorem lookupCat_getCat (s : BSt) (u : String) (d : CatDir)
    (h : lookupCat s.cats u = some d) : s.getCat u = d := by
  unfold BSt.getCat
  rw [h]
  rfl

theorem create_backup_store_none (env : CreateEnv) (st : BSt) (c : String) (d : Option String)
    (h : st.store = none) :
    create_backup env st c d = (CreateResult.sourceMissing, ensure_backup_directory st) := by
  have h1 : (ensure_backup_directory st).store = none := by
    rw [store_ensure_backup_directory, h]
  unfold create_backup
  simp [BACKUP_ENABLED, h1]

theorem create_backup_ok_state (env : CreateEnv) (st : BSt) (c : String) (d : Option String)
    (content : Bytes) (hst : st.store = some content) (hcomp : env.compressOk = true)
    (hmeta : env.metaOk = true) :
    (create_backup env st c d).1 = CreateResult.ok ∧
    (create_backup env st c d).2.getCat c =
      cleanupDir env.deleteFails c
        ⟨(st.getCat c).snaps ++ [⟨backupFilename env.now d, env.now, GzData.ok content⟩],
         (st.getCat c).sidecars ++ [backupFilename env.now d ++ ".json"]⟩ := by
  have h1 : (ensure_backup_directory st).store = some content := by
    rw [store_ensure_backup_directory, hst]
  have h2 : ((ensure_backup_directory st).ensureDir c).getCat c = st.getCat c := by
    rw [getCat_ensureDir, getCat_ensure_backup_directory]
  unfold create_backup
  rw [if_neg (by simp [BACKUP_ENABLED])]
  simp only [h1, hcomp, hmeta]
  rw [if_neg (by simp), if_neg (by simp)]
  refine ⟨rfl, ?_⟩
  unfold cleanup_old_backups BSt.setCat
  simp only [lookupCat_setCatList, if_pos, h2]
  unfold BSt.getCat
  rw [lookupCat_setCatList, if_pos rfl]
  rfl

theorem create_backup_compress_fail (env : CreateEnv) (st : BSt) (c : String)
    (d : Option String) (content : Bytes) (hst : st.store = some content)
    (hcomp : env.compressOk = false) :
    (create_backup env st c d).1 = CreateResult.storageError ∧
    (create_backup env st c d).2.getCat c =
      ⟨(st.getCat c).snaps ++
        [⟨backupFilename env.now d, env.now, GzData.corrupt env.corruptWritten⟩],
       (st.getCat c).sidecars⟩ ∧
    ∀ u, u ≠ c → (create_backup env st c d).2.getCat u = st.getCat u := by
  have h1 : (ensure_backup_directory st).store = some content := by
    rw [store_ensure_backup_directory, hst]
  have h2 : ((ensure_backup_directory st).ensureDir c).getCat c = st.getCat c := by
    rw [getCat_ensureDir, getCat_ensure_backup_directory]
  unfold create_backup
  rw [if_neg (by simp [BACKUP_ENABLED])]
  simp only [h1, hcomp]
  rw [if_pos trivial]
  refine ⟨rfl, ?_, ?_⟩
  · rw [getCat_setCat, if_pos rfl, h2]
  · intro u hu
    rw [getCat_setCat, if_neg (fun hh => hu hh.symm), getCat_ensureDir,
      getCat_ensure_backup_directory]

theorem create_backup_meta_fail (env : CreateEnv) (st : BSt) (c : String)
    (d : Option String) (content : Bytes) (hst : st.store = some content)
    (hcomp : env.compressOk = true) (hmeta : env.metaOk = false) :
    (create_backup env st c d).1 = CreateResult.storageError ∧
    (create_backup env st c d).2.getCat c =
      ⟨(st.getCat c).snaps ++ [⟨backupFilename env.now d, env.now, GzData.ok content⟩],
       (st.getCat c).sidecars⟩ ∧
    ∀ u, u ≠ c → (create_backup env st c d).2.getCat u = st.getCat u := by
  have h1 : (ensure_backup_directory st).store = some content := by
    rw [store_ensure_backup_directory, hst]
  have h2 : ((ensure_backup_directory st).ensureDir c).getCat c = st.getCat c := by
    rw [getCat_ensureDir, getCat_ensure_backup_directory]
  unfold create_backup
  rw [if_neg (by simp [BACKUP_ENABLED])]
  simp only [h1, hcomp, hmeta]
  rw [if_neg (by simp), if_pos trivial]
  refine ⟨rfl, ?_, ?_⟩
  · rw [getCat_setCat, if_pos rfl, h2]
  · intro u hu
    rw [getCat_setCat, if_neg (fun hh => hu hh.symm), getCat_ensureDir,
      getCat_ensure_backup_directory]

theorem create_backup_ok_inv (env : CreateEnv) (st : BSt) (c : String) (d : Option String)
    (hok : (create_backup env st c d).1 = CreateResult.ok) :
    ∃ content, st.store = some content ∧ env.compressOk = true ∧ env.metaOk = true := by
  cases hs : st.store with
  | none =>
    rw [create_backup_store_none env st c d hs] at hok
    cases hok
  | some content =>
    refine ⟨content, rfl, ?_, ?_⟩
    · cases hcomp : env.compressOk with
      | true => rfl
      | false =>
        rw [(create_backup_compress_fail env st c d content hs hcomp).1] at hok
        cases hok
    · cases hmeta : env.metaOk with
      | true => rfl
      | false =>
        cases hcomp : env.compressOk with
        | false =>
          rw [(create_backup_compress_fail env st c d content hs hcomp).1] at hok
          cases hok
        | true =>
          rw [(create_backup_meta_fail env st c d content hs hcomp hmeta).1] at hok
          cases hok

theorem beq_symm {α : Type} [BEq α] [LawfulBEq α] (x y : α) : (x == y) = (y == x) := by
  cases hxy : x == y
  · cases hyx : y == x
    · rfl
    · have h : y = x := eq_of_beq hyx
      subst h
      simp at hxy
  · have h : x = y := eq_of_beq hxy
    subst h
    rw [beq_self_eq_true]

theorem pruneLoop_snaps (fails : List String) (l : List Snap) (d : CatDir) :
    (pruneLoop fails l d).snaps = d.snaps.filter (fun s => !(hitBy fails l s.name)) := by
  induction l generalizing d with
  | nil => simp [pruneLoop, hitBy]
  | cons f rest ih =>
    simp only [pruneLoop]
    by_cases hf : f.name ∈ fails
    · rw [if_pos hf, ih]
      apply List.filter_congr
      intro a _
      simp [hitBy, hf]
    · rw [if_neg hf, ih]
      unfold removeSnap
      dsimp only
      rw [List.filter_filter]
      apply List.filter_congr
      intro a _
      simp only [hitBy, List.any_cons, decide_eq_false hf, Bool.not_false, Bool.true_and,
        Bool.not_or]
      rw [beq_symm a.name f.name, Bool.and_comm]

theorem pruneLoop_sidecars (fails : List String) (l : List Snap) (d : CatDir) :
    (pruneLoop fails l d).sidecars =
      d.sidecars.filter (fun sc => !(hitSidecar fails l sc)) := by
  induction l generalizing d with
  | nil => simp [pruneLoop, hitSidecar]
  | cons f rest ih =>
    simp only [pruneLoop]
    by_cases hf : f.name ∈ fails
    · rw [if_pos hf, ih]
      apply List.filter_congr
      intro a _
      simp [hitSidecar, hf]
    · rw [if_neg hf, ih]
      unfold removeSnap
      dsimp only
      rw [List.filter_filter]
      apply List.filter_congr
      intro a _
      simp only [hitSidecar, List.any_cons, decide_eq_false hf, Bool.not_false, Bool.true_and,
        Bool.not_or]
      rw [beq_symm a (f.name ++ ".json"), Bool.and_comm]

theorem isBackupFile_backupFilename (now : Nat) (dsc : Option String) :
    isBackupFile (backupFilename now dsc) = true := by
  have hpre : ∀ s : String, isBackupFile ("library_backup_" ++ s ++ ".db.gz") = true := by
    intro s
    unfold isBackupFile
    rw [Bool.and_eq_true]
    constructor
    · rw [ List.isPrefixOf_iff_prefix]
      have h : ("library_backup_" ++ s ++ ".db.gz").toList =
          "library_backup_".toList ++ (s.toList ++ ".db.gz".toList) := by
        simp [String.toList]
      rw [h]
      exact List.prefix_append _ _
    · rw [List.isSuffixOf_iff_suffix]
      have h : ("library_backup_" ++ s ++ ".db.gz").toList =
          ("library_backup_".toList ++ s.toList) ++ ".db.gz".toList := by
        simp [String.toList]
      rw [h]
      exact List.suffix_append _ _
  cases dsc with
  | none => exact hpre (toString now)
  | some ds =>
    simp only [backupFilename]
    by_cases hd : ds = ""
    · rw [if_pos hd]
      exact hpre (toString now)
    · rw [if_neg hd]
      have h : "library_backup_" ++ toString now ++ "_" ++ spaceToUnderscore (pythonSafeDesc ds)
          ++ ".db.gz" = "library_backup_" ++
            (toString now ++ "_" ++ spaceToUnderscore (pythonSafeDesc ds)) ++ ".db.gz" := by
        simp [String.append_assoc]
      rw [h]
      exact hpre _

theorem filter_take_drop_split {α : Type} (p : α → Bool) (n : Nat) (l : List α)
    (h1 : ∀ x ∈ l.take n, p x = true) (h2 : ∀ x ∈ l.drop n, p x = false) :
    l.filter p = l.take n := by
  conv =>
    lhs
    rw [← List.take_append_drop n l]
  rw [List.filter_append, List.filter_eq_self.mpr h1,
    List.filter_eq_nil_iff.mpr (fun a ha => by rw [h2 a ha]; simp), List.append_nil]

theorem cleanupDir_snaps_perm (t : String) (d : CatDir)
    (hnodup : (d.snaps.map Snap.name).Nodup)
    (hglob : ∀ f ∈ d.snaps, isBackupFile f.name = true) :
    (cleanupDir [] t d).snaps.Perm
      ((d.snaps.insertionSort snapGE).take (maxBackups t)) := by
  have hfil : d.snaps.filter (fun f => isBackupFile f.name) = d.snaps :=
    List.filter_eq_self.mpr hglob
  unfold cleanupDir
  rw [hfil, pruneLoop_snaps]
  have hperm : (d.snaps.insertionSort snapGE).Perm d.snaps :=
    List.perm_insertionSort snapGE d.snaps
  have hpn : ((d.snaps.insertionSort snapGE).map Snap.name).Nodup :=
    ((hperm.map Snap.name).nodup_iff).mpr hnodup
  have hpairwise : (d.snaps.insertionSort snapGE).Pairwise (fun a b => a.name ≠ b.name) := by
    have hh := hpn
    unfold List.Nodup at hh
    rw [List.pairwise_map] at hh
    exact hh
  have htake : ∀ x ∈ (d.snaps.insertionSort snapGE).take (maxBackups t),
      (!(hitBy [] ((d.snaps.insertionSort snapGE).drop (maxBackups t)) x.name)) = true := by
    intro x hx
    have hne : ∀ f ∈ (d.snaps.insertionSort snapGE).drop (maxBackups t), f.name ≠ x.name :=
      fun f hfm => (hpairwise.rel_of_mem_take_of_mem_drop hx hfm).symm
    simp only [hitBy, Bool.not_eq_true', List.any_eq_false]
    intro f hfm
    simp [hne f hfm]
  have hdrop : ∀ x ∈ (d.snaps.insertionSort snapGE).drop (maxBackups t),
      (!(hitBy [] ((d.snaps.insertionSort snapGE).drop (maxBackups t)) x.name)) = false := by
    intro x hx
    have hh : hitBy [] ((d.snaps.insertionSort snapGE).drop (maxBackups t)) x.name = true := by
      unfold hitBy
      rw [List.any_eq_true]
      exact ⟨x, hx, by simp⟩
    rw [hh]
    rfl
  have hcalc :
      (d.snaps.filter
        (fun s => !(hitBy [] ((d.snaps.insertionSort snapGE).drop (maxBackups t)) s.name))).Perm
      ((d.snaps.insertionSort snapGE).filter
        (fun s => !(hitBy [] ((d.snaps.insertionSort snapGE).drop (maxBackups t)) s.name))) :=
    (hperm.filter _).symm
  refine hcalc.trans ?_
  rw [filter_take_drop_split _ (maxBackups t) _ htake hdrop]

theorem cleanupDir_sidecars_eq (t : String) (d : CatDir)
    (hglob : ∀ f ∈ d.snaps, isBackupFile f.name = true) :
    (cleanupDir [] t d).sidecars =
      d.sidecars.filter
        (fun sc => !(hitSidecar [] ((d.snaps.insertionSort snapGE).drop (maxBackups t)) sc)) := by
  have hfil : d.snaps.filter (fun f => isBackupFile f.name) = d.snaps :=
    List.filter_eq_self.mpr hglob
  unfold cleanupDir
  rw [hfil, pruneLoop_sidecars]

theorem cleanup_spec (t : String) (d2 : CatDir)
    (hnodup : (d2.snaps.map Snap.name).Nodup)
    (hglob : ∀ f ∈ d2.snaps, isBackupFile f.name = true) :
    (cleanupDir [] t d2).snaps.length ≤ maxBackups t ∧
    (cleanupDir [] t d2).snaps.length = min d2.snaps.length (maxBackups t) ∧
    (∀ f ∈ (cleanupDir [] t d2).snaps, f ∈ d2.snaps) ∧
    (∀ f ∈ (cleanupDir [] t d2).snaps, ∀ g ∈ d2.snaps,
      g ∉ (cleanupDir [] t d2).snaps → g.mtime ≤ f.mtime) ∧
    (∀ g ∈ d2.snaps, g ∉ (cleanupDir [] t d2).snaps →
      (g.name ++ ".json") ∉ (cleanupDir [] t d2).sidecars) := by
  have hperm := cleanupDir_snaps_perm t d2 hnodup hglob
  have hsp := List.perm_insertionSort snapGE d2.snaps
  have hsorted : List.Sorted snapGE (d2.snaps.insertionSort snapGE) :=
    List.sorted_insertionSort snapGE d2.snaps
  have hdropmem : ∀ g ∈ d2.snaps, g ∉ (cleanupDir [] t d2).snaps →
      g ∈ (d2.snaps.insertionSort snapGE).drop (maxBackups t) := by
    intro g hg hgn
    have hgs : g ∈ d2.snaps.insertionSort snapGE := hsp.mem_iff.mpr hg
    rw [← List.take_append_drop (maxBackups t) (d2.snaps.insertionSort snapGE)] at hgs
    rcases List.mem_append.mp hgs with h | h
    · exact absurd (hperm.mem_iff.mpr h) hgn
    · exact h
  refine ⟨?_, ?_, ?_, ?_, ?_⟩
  · rw [hperm.length_eq, List.length_take]
    exact min_le_left _ _
  · rw [hperm.length_eq, List.length_take, Nat.min_comm, hsp.length_eq]
  · intro f hf
    exact hsp.mem_iff.mp (List.take_subset _ _ (hperm.mem_iff.mp hf))
  · intro f hf g hg hgn
    have hfm : f ∈ (d2.snaps.insertionSort snapGE).take (maxBackups t) := hperm.mem_iff.mp hf
    exact @List.Pairwise.rel_of_mem_take_of_mem_drop Snap snapGE (maxBackups t) f g
      (d2.snaps.insertionSort snapGE) hsorted hfm (hdropmem g hg hgn)
  · intro g hg hgn hmem
    have hgm := hdropmem g hg hgn
    rw [cleanupDir_sidecars_eq t d2 hglob] at hmem
    have hpred := (List.mem_filter.mp hmem).2
    have hhit : hitSidecar [] ((d2.snaps.insertionSort snapGE).drop (maxBackups t))
        (g.name ++ ".json") = true := by
      unfold hitSidecar
      rw [List.any_eq_true]
      exact ⟨g, hgm, by simp⟩
    rw [hhit] at hpred
    simp at hpred

/-- C1: after a successful create in one of the four categories, under a
failure-free pruning pass, the category retains at most its limit of
snapshot files (daily 7, frequent 24, events 10, manual 5); the retained
files are drawn from the previous files plus the new snapshot, every
pruned file has a modification time no newer than every retained file, the
retained count is the minimum of the file count and the limit, and every
sidecar metadata file of every pruned snapshot is removed with it. -/
theorem C1_retention_after_create (env : CreateEnv) (st : BSt) (c : String) (d : Option String)
    (content : Bytes)
    (hcat : c = "daily" ∨ c = "frequent" ∨ c = "events" ∨ c = "manual")
    (hdel : env.deleteFails = [])
    (hst : st.store = some content)
    (hnodup : ((st.getCat c).snaps.map Snap.name).Nodup)
    (hfresh : ∀ f ∈ (st.getCat c).snaps, f.name ≠ backupFilename env.now d)
    (hglob : ∀ f ∈ (st.getCat c).snaps, isBackupFile f.name = true)
    (hok : (create_backup env st c d).1 = CreateResult.ok) :
    (maxBackups "daily" = 7 ∧ maxBackups "frequent" = 24 ∧
      maxBackups "events" = 10 ∧ maxBackups "manual" = 5) ∧
    ((create_backup env st c d).2.getCat c).snaps.length ≤ maxBackups c ∧
    ((create_backup env st c d).2.getCat c).snaps.length =
      min ((st.getCat c).snaps.length + 1) (maxBackups c) ∧
    (∀ f ∈ ((create_backup env st c d).2.getCat c).snaps,
      f ∈ (st.getCat c).snaps ++ [⟨backupFilename env.now d, env.now, GzData.ok content⟩]) ∧
    (∀ f ∈ ((create_backup env st c d).2.getCat c).snaps,
      ∀ g ∈ (st.getCat c).snaps ++ [⟨backupFilename env.now d, env.now, GzData.ok content⟩],
        g ∉ ((create_backup env st c d).2.getCat c).snaps → g.mtime ≤ f.mtime) ∧
    (∀ g ∈ (st.getCat c).snaps ++ [⟨backupFilename env.now d, env.now, GzData.ok content⟩],
      g ∉ ((create_backup env st c d).2.getCat c).snaps →
        (g.name ++ ".json") ∉ ((create_backup env st c d).2.getCat c).sidecars) := by
  obtain ⟨content2, hst2, hcomp, hmeta⟩ := create_backup_ok_inv env st c d hok
  have hstate := (create_backup_ok_state env st c d content hst hcomp hmeta).2
  rw [hdel] at hstate
  have hnodup2 : (((st.getCat c).snaps ++
      [(⟨backupFilename env.now d, env.now, GzData.ok content⟩ : Snap)]).map Snap.name).Nodup := by
    rw [List.map_append, List.nodup_append]
    refine ⟨hnodup, List.nodup_singleton _, ?_⟩
    intro a ha hb
    simp only [List.map_cons, List.map_nil, List.mem_singleton] at hb
    obtain ⟨f, hf, hfn⟩ := List.mem_map.mp ha
    exact hfresh f hf (by rw [hfn, hb])
  have hglob2 : ∀ f ∈ (st.getCat c).snaps ++
      [(⟨backupFilename env.now d, env.now, GzData.ok content⟩ : Snap)],
      isBackupFile f.name = true := by
    intro f hf
    rcases List.mem_append.mp hf with h | h
    · exact hglob f h
    · rw [List.mem_singleton] at h
      subst h
      exact isBackupFile_backupFilename env.now d
  have hspec := cleanup_spec c
    ⟨(st.getCat c).snaps ++ [⟨backupFilename env.now d, env.now, GzData.ok content⟩],
     (st.getCat c).sidecars ++ [backupFilename env.now d ++ ".json"]⟩ hnodup2 hglob2
  refine ⟨⟨by decide, by decide, by decide, by decide⟩, ?_, ?_, ?_, ?_, ?_⟩
  · rw [hstate]
    exact hspec.1
  · rw [hstate]
    simpa using hspec.2.1
  · intro f hf
    rw [hstate] at hf
    exact hspec.2.2.1 f hf
  · intro f hf g hg hgn
    rw [hstate] at hf hgn
    exact hspec.2.2.2.1 f hf g hg hgn
  · intro g hg hgn
    rw [hstate] at hgn ⊢
    exact hspec.2.2.2.2 g hg hgn

/-- Closed instance of C1: the full manual category of the concrete state
receives a sixth snapshot and is pruned back to its limit of five. -/
theorem C1_witness :
    (create_backup envW stW "manual" none).1 = CreateResult.ok ∧
    ((create_backup envW stW "manual" none).2.getCat "manual").snaps.length ≤
      maxBackups "manual" ∧
    ((create_backup envW stW "manual" none).2.getCat "manual").snaps.length =
      min ((stW.getCat "manual").snaps.length + 1) (maxBackups "manual") :=
  ⟨by decide,
   (C1_retention_after_create envW stW "manual" none [1, 2, 3]
     (Or.inr (Or.inr (Or.inr rfl))) rfl rfl (by decide) (by decide) (by decide)
     (by decide)).2.1,
   (C1_retention_after_create envW stW "manual" none [1, 2, 3]
     (Or.inr (Or.inr (Or.inr rfl))) rfl rfl (by decide) (by decide) (by decide)
     (by decide)).2.2.1⟩

/-- C4 as stated is refuted: when the store file is absent, create does
fail and creates no files, but it does not perform no action — it first
runs ensure_backup_directory, which creates the backup directory tree, so
the state is not left untouched. -/
theorem C4_counterexample :
    (create_backup ⟨1, true, [], true, []⟩ ⟨none, []⟩ "daily" none).1 =
      CreateResult.sourceMissing ∧
    (create_backup ⟨1, true, [], true, []⟩ ⟨none, []⟩ "daily" none).2 ≠ (⟨none, []⟩ : BSt) := by
  decide

/-- C4 amended: when the store file is absent, create fails with
SourceMissing, returns failure, and creates no snapshot or sidecar files;
its only side effect is ensuring that the backup directory tree exists
(category directories may be created empty). -/
theorem C4_source_missing (env : CreateEnv) (st : BSt) (c : String) (d : Option String)
    (h : st.store = none) :
    (create_backup env st c d).1 = CreateResult.sourceMissing ∧
    (create_backup env st c d).2 = ensure_backup_directory st ∧
    (create_backup env st c d).2.store = none ∧
    ∀ u, (create_backup env st c d).2.getCat u = st.getCat u := by
  have h0 := create_backup_store_none env st c d h
  refine ⟨by rw [h0], by rw [h0], ?_, ?_⟩
  · rw [h0]
    show (ensure_backup_directory st).store = none
    rw [store_ensure_backup_directory, h]
  · intro u
    rw [h0]
    exact getCat_ensure_backup_directory st u

/-- Closed instance of C4: create on an absent store fails with
SourceMissing and leaves every category directory content unchanged. -/
theorem C4_witness :
    (⟨none, []⟩ : BSt).store = none ∧
    (create_backup envW ⟨none, []⟩ "daily" none).1 = CreateResult.sourceMissing ∧
    (create_backup envW ⟨none, []⟩ "daily" none).2.getCat "daily" =
      (⟨none, []⟩ : BSt).getCat "daily" :=
  ⟨rfl, (C4_source_missing envW ⟨none, []⟩ "daily" none rfl).1,
   (C4_source_missing envW ⟨none, []⟩ "daily" none rfl).2.2.2 "daily"⟩

/-- C3 as stated is refuted: the safety snapshot is attempted first, but
its description is the source literal pre_restore_backup, not the claimed
string with a hyphen and a space. -/
theorem C3_counterexample :
    Act.safetySnapshot "events" "pre_restore_backup" ∈
      (restore_backup envW stW "manual" "library_backup_1.db.gz").2.2 ∧
    Act.safetySnapshot "events" "pre-restore backup" ∉
      (restore_backup envW stW "manual" "library_backup_1.db.gz").2.2 := by
  decide

/-- C3 amended: for every restore whose snapshot file exists, a safety
snapshot of the current store with category events and description
pre_restore_backup is attempted before the live store file is overwritten,
regardless of whether the subsequent decompression succeeds: the first
recorded action of the run is the safety snapshot, and every store
overwrite comes strictly later. -/
theorem C3_safety_snapshot_first (env : CreateEnv) (st : BSt) (cat fname : String)
    (hex : ∃ g, (st.getCat cat).snaps.find? (fun f => f.name == fname) = some g) :
    (restore_backup env st cat fname).2.2.head? =
      some (Act.safetySnapshot "events" "pre_restore_backup") ∧
    ∀ i content, (restore_backup env st cat fname).2.2.get? i =
      some (Act.overwriteStore content) → 1 ≤ i := by
  obtain ⟨g, hg⟩ := hex
  unfold restore_backup
  rw [hg]
  dsimp only
  cases h2 : ((create_backup env st "events" (some "pre_restore_backup")).2.getCat cat).snaps.find?
      (fun f => f.name == fname) with
  | none =>
    refine ⟨rfl, ?_⟩
    intro i content hi
    cases i with
    | zero => simp at hi
    | succ n =>
      cases hi2 : ([Act.safetySnapshot "events" "pre_restore_backup"].get? (n + 1)) <;>
        exact Nat.succ_le_succ (Nat.zero_le n)
  | some snap =>
    dsimp only
    cases hd : snap.data with
    | ok content2 =>
      refine ⟨rfl, ?_⟩
      intro i content hi
      cases i with
      | zero => simp at hi
      | succ n => exact Nat.succ_le_succ (Nat.zero_le n)
    | corrupt w =>
      refine ⟨rfl, ?_⟩
      intro i content hi
      cases i with
      | zero => simp at hi
      | succ n => exact Nat.succ_le_succ (Nat.zero_le n)

/-- Closed instance of the amended C3: restoring an existing manual
snapshot records the safety snapshot as the first action. -/
theorem C3_witness :
    (stW.getCat "manual").snaps.find?
      (fun f => f.name == "library_backup_1.db.gz") =
        some ⟨"library_backup_1.db.gz", 1, .ok [9]⟩ ∧
    (restore_backup envW stW "manual" "library_backup_1.db.gz").2.2.head? =
      some (Act.safetySnapshot "events" "pre_restore_backup") :=
  ⟨by decide,
   (C3_safety_snapshot_first envW stW "manual" "library_backup_1.db.gz"
     ⟨⟨"library_backup_1.db.gz", 1, .ok [9]⟩, by decide⟩).1⟩

/-- C5 as stated is refuted: a restore from a corrupt snapshot fails, yet
the live store file is left partially written (here truncated to nothing),
because the source opens the store in truncating write mode before the
decompression has finished. -/
theorem C5_counterexample :
    (restore_backup envW stC "manual" "library_backup_1.db.gz").1.1 = false ∧
    (restore_backup envW stC "manual" "library_backup_1.db.gz").2.1.store = some [] ∧
    (restore_backup envW stC "manual" "library_backup_1.db.gz").2.1.store ≠ stC.store := by
  decide

/-- C5 amended: every compression or metadata failure during create aborts
with a StorageError result, and the metadata sidecar is written only after
the compressed copy has succeeded (no category gains or loses a sidecar on
such a failure); pruning failures, however, do not abort the operation:
create still returns success when an unlink fails, and the file whose
unlink failed survives the pruning pass; a restore whose reopened snapshot
is corrupt aborts with a failure result, but may leave the live store file
holding only the decoded prefix — a failed restore does not preserve the
previous store content. -/
theorem C5_failure_reporting :
    (∀ (env : CreateEnv) (st : BSt) (c : String) (d : Option String) (content : Bytes),
      st.store = some content → env.compressOk = false →
      (create_backup env st c d).1 = CreateResult.storageError ∧
      ∀ u, ((create_backup env st c d).2.getCat u).sidecars = (st.getCat u).sidecars) ∧
    (∀ (env : CreateEnv) (st : BSt) (c : String) (d : Option String) (content : Bytes),
      st.store = some content → env.compressOk = true → env.metaOk = false →
      (create_backup env st c d).1 = CreateResult.storageError ∧
      ∀ u, ((create_backup env st c d).2.getCat u).sidecars = (st.getCat u).sidecars) ∧
    (∀ (env : CreateEnv) (st : BSt) (c : String) (d : Option String) (content : Bytes),
      st.store = some content → env.compressOk = true → env.metaOk = true →
      (create_backup env st c d).1 = CreateResult.ok) ∧
    (∀ (fails : List String) (l : List Snap) (d2 : CatDir) (g : Snap),
      g ∈ d2.snaps → g.name ∈ fails → g ∈ (pruneLoop fails l d2).snaps) ∧
    (∀ (env : CreateEnv) (st : BSt) (cat fname : String) (g : Snap) (w : Bytes),
      (∃ g0, (st.getCat cat).snaps.find? (fun f => f.name == fname) = some g0) →
      ((create_backup env st "events" (some "pre_restore_backup")).2.getCat cat).snaps.find?
        (fun f => f.name == fname) = some g →
      g.data = GzData.corrupt w →
      (restore_backup env st cat fname).1.1 = false ∧
      (restore_backup env st cat fname).2.1.store = some w) := by
  refine ⟨?_, ?_, ?_, ?_, ?_⟩
  · intro env st c d content hst hcomp
    obtain ⟨h1, h2, h3⟩ := create_backup_compress_fail env st c d content hst hcomp
    refine ⟨h1, ?_⟩
    intro u
    by_cases hu : u = c
    · subst hu
      rw [h2]
    · rw [h3 u hu]
  · intro env st c d content hst hcomp hmeta
    obtain ⟨h1, h2, h3⟩ := create_backup_meta_fail env st c d content hst hcomp hmeta
    refine ⟨h1, ?_⟩
    intro u
    by_cases hu : u = c
    · subst hu
      rw [h2]
    · rw [h3 u hu]
  · intro env st c d content hst hcomp hmeta
    exact (create_backup_ok_state env st c d content hst hcomp hmeta).1
  · intro fails l d2 g hg hgf
    rw [pruneLoop_snaps, List.mem_filter]
    refine ⟨hg, ?_⟩
    have hhit : hitBy fails l g.name = false := by
      unfold hitBy
      rw [List.any_eq_false]
      intro f hf hcontra
      rw [Bool.and_eq_true] at hcontra
      obtain ⟨h1, h2⟩ := hcontra
      have hfe : f.name = g.name := by simpa using h2
      rw [hfe] at h1
      simp [hgf] at h1
    rw [hhit]
    rfl
  · intro env st cat fname g w hex hg hd
    obtain ⟨g0, hg0⟩ := hex
    unfold restore_backup
    rw [hg0]
    dsimp only
    rw [hg]
    dsimp only
    rw [hd]
    exact ⟨rfl, rfl⟩

/-- Closed instance of the amended C5: a dying gzip copy aborts create with
StorageError and writes no sidecar; create with a failing unlink of the
oldest over-limit file still returns success and that file survives its
pruning pass; and restoring the corrupt snapshot fails while leaving the
store truncated. -/
theorem C5_witness :
    (create_backup ⟨9, false, [5], true, []⟩ stW "manual" none).1 =
      CreateResult.storageError ∧
    ((create_backup ⟨9, false, [5], true, []⟩ stW "manual" none).2.getCat "manual").sidecars =
      (stW.getCat "manual").sidecars ∧
    (create_backup ⟨9, true, [], true, ["library_backup_1.db.gz"]⟩ stW "manual" none).1 =
      CreateResult.ok ∧
    (⟨"library_backup_1.db.gz", 1, .ok [9]⟩ : Snap) ∈
      (pruneLoop ["library_backup_1.db.gz"] (stW.getCat "manual").snaps
        (stW.getCat "manual")).snaps ∧
    (restore_backup envW stC "manual" "library_backup_1.db.gz").1.1 = false ∧
    (restore_backup envW stC "manual" "library_backup_1.db.gz").2.1.store = some [] :=
  ⟨(C5_failure_reporting.1 ⟨9, false, [5], true, []⟩ stW "manual" none [1, 2, 3] rfl rfl).1,
   (C5_failure_reporting.1 ⟨9, false, [5], true, []⟩ stW "manual" none [1, 2, 3]
     rfl rfl).2 "manual",
   C5_failure_reporting.2.2.1 ⟨9, true, [], true, ["library_backup_1.db.gz"]⟩ stW "manual"
     none [1, 2, 3] rfl rfl rfl,
   C5_failure_reporting.2.2.2.1 ["library_backup_1.db.gz"] (stW.getCat "manual").snaps
     (stW.getCat "manual") ⟨"library_backup_1.db.gz", 1, .ok [9]⟩ (by decide) (by decide),
   (C5_failure_reporting.2.2.2.2 envW stC "manual" "library_backup_1.db.gz"
     ⟨"library_backup_1.db.gz", 1, .corrupt []⟩ []
     ⟨⟨"library_backup_1.db.gz", 1, .corrupt []⟩, by decide⟩ (by decide) rfl).1,
   (C5_failure_reporting.2.2.2.2 envW stC "manual" "library_backup_1.db.gz"
     ⟨"library_backup_1.db.gz", 1, .corrupt []⟩ []
     ⟨⟨"library_backup_1.db.gz", 1, .corrupt []⟩, by decide⟩ (by decide) rfl).2⟩

/-- C8: failures are absorbed at the facility boundary and converted to
result values — create returns a failure result when the store is missing
or the compression dies, restore returns a failure-with-message pair when
the snapshot path does not exist, the listing returns the empty list when
its body fails — and a failed unlink of one file during pruning does not
abort the pruning of the remaining files: every non-failing file beyond
the limit is still removed. -/
theorem C8_boundary_and_best_effort :
    (∀ (fails : List String) (l : List Snap) (d2 : CatDir) (g : Snap),
      g ∈ l → g.name ∉ fails → ∀ s ∈ (pruneLoop fails l d2).snaps, s.name ≠ g.name) ∧
    (∀ st : BSt, get_backup_list true st = []) ∧
    (∀ (env : CreateEnv) (st : BSt) (c : String) (d : Option String),
      st.store = none → (create_backup env st c d).1 = CreateResult.sourceMissing) ∧
    (∀ (env : CreateEnv) (st : BSt) (c : String) (d : Option String) (content : Bytes),
      st.store = some content → env.compressOk = false →
      (create_backup env st c d).1 = CreateResult.storageError) ∧
    (∀ (env : CreateEnv) (st : BSt) (cat fname : String),
      (st.getCat cat).snaps.find? (fun f => f.name == fname) = none →
      restore_backup env st cat fname = ((false, "Backup file not found"), st, [])) := by
  refine ⟨?_, ?_, ?_, ?_, ?_⟩
  · intro fails l d2 g hgl hgf s hs hname
    rw [pruneLoop_snaps] at hs
    have hpred := (List.mem_filter.mp hs).2
    have hhit : hitBy fails l s.name = true := by
      unfold hitBy
      rw [List.any_eq_true]
      refine ⟨g, hgl, ?_⟩
      rw [Bool.and_eq_true]
      constructor
      · simp [hgf]
      · rw [hname]
        simp
    rw [hhit] at hpred
    simp at hpred
  · intro st
    rfl
  · intro env st c d h
    rw [create_backup_store_none env st c d h]
  · intro env st c d content hst hcomp
    exact (create_backup_compress_fail env st c d content hst hcomp).1
  · intro env st cat fname h
    unfold restore_backup
    rw [h]

/-- Closed instance of C8: the failing listing is empty, create on an
absent store reports SourceMissing, and restore of a missing path returns
the not-found message with the state untouched. -/
theorem C8_witness :
    get_backup_list true stW = [] ∧
    (create_backup envW ⟨none, []⟩ "manual" none).1 = CreateResult.sourceMissing ∧
    restore_backup envW stW "manual" "missing.db.gz" = ((false, "Backup file not found"), stW, []) :=
  ⟨C8_boundary_and_best_effort.2.1 stW,
   C8_boundary_and_best_effort.2.2.1 envW ⟨none, []⟩ "manual" none rfl,
   C8_boundary_and_best_effort.2.2.2.2 envW stW "manual" "missing.db.gz" (by decide)⟩

/-- C9 as stated is refuted: the source strips trailing whitespace before
truncating and replacing, so a description with a trailing space yields a
name without the trailing underscore the claimed pipeline would produce. -/
theorem C9_counterexample :
    backupFilename 5 (some "abc ") = "library_backup_5_abc.db.gz" ∧
    "library_backup_5_" ++ specSanitizedDesc "abc " ++ ".db.gz" =
      "library_backup_5_abc_.db.gz" ∧
    backupFilename 5 (some "abc ") ≠
      "library_backup_5_" ++ specSanitizedDesc "abc " ++ ".db.gz" := by
  decide

theorem rstripChars_subset (l : List Char) : ∀ x ∈ rstripChars l, x ∈ l := by
  intro x hx
  unfold rstripChars at hx
  rw [List.mem_reverse] at hx
  have hsub := (List.dropWhile_sublist (fun c => c.isWhitespace) (l := l.reverse)).subset hx
  rw [List.mem_reverse] at hsub
  exact hsub

/-- C9 amended: the description embedded in the snapshot file name is the
input filtered to alphanumerics, spaces, underscores and hyphens, with
trailing whitespace stripped, truncated to 30 characters, and with spaces
replaced by underscores; the embedded description is hence at most 30
characters, each alphanumeric, an underscore or a hyphen; a call with no
description (or an empty one) produces a name holding only the prefix and
the timestamp. -/
theorem C9_sanitized_description (now : Nat) (ds : String) (hd : ds ≠ "") :
    backupFilename now (some ds) = "library_backup_" ++ toString now ++ "_" ++
      spaceToUnderscore ⟨(rstripChars (ds.toList.filter
        (fun c => c.isAlphanum || c == ' ' || c == '_' || c == '-'))).take 30⟩ ++ ".db.gz" ∧
    (spaceToUnderscore (pythonSafeDesc ds)).toList.length ≤ 30 ∧
    (∀ ch ∈ (spaceToUnderscore (pythonSafeDesc ds)).toList,
      ch.isAlphanum = true ∨ ch = '_' ∨ ch = '-') ∧
    backupFilename now none = "library_backup_" ++ toString now ++ ".db.gz" ∧
    backupFilename now (some "") = "library_backup_" ++ toString now ++ ".db.gz" := by
  have hlist : (spaceToUnderscore (pythonSafeDesc ds)).toList =
      ((rstripChars (ds.toList.filter
        (fun c => c.isAlphanum || c == ' ' || c == '_' || c == '-'))).take 30).map
          (fun c => if c = ' ' then '_' else c) := rfl
  refine ⟨?_, ?_, ?_, rfl, rfl⟩
  · simp only [backupFilename, if_neg hd]
    rfl
  · rw [hlist, List.length_map, List.length_take]
    exact min_le_left _ _
  · intro ch hch
    rw [hlist] at hch
    obtain ⟨c0, hc0, hc0e⟩ := List.mem_map.mp hch
    have hc0r := List.take_subset 30 _ hc0
    have hc0f := rstripChars_subset _ c0 hc0r
    have hpred := (List.mem_filter.mp hc0f).2
    simp only [Bool.or_eq_true, beq_iff_eq] at hpred
    by_cases hsp : c0 = ' '
    · rw [if_pos hsp] at hc0e
      exact Or.inr (Or.inl hc0e.symm)
    · rw [if_neg hsp] at hc0e
      subst hc0e
      rcases hpred with ((h | h) | h) | h
      · exact Or.inl h
      · exact absurd h hsp
      · exact Or.inr (Or.inl h)
      · exact Or.inr (Or.inr h)

/-- Closed instance of the amended C9: the description with an inner space
is embedded with the space turned into an underscore. -/
theorem C9_witness :
    ("ab c" : String) ≠ "" ∧
    backupFilename 5 (some "ab c") = "library_backup_" ++ toString 5 ++ "_" ++
      spaceToUnderscore ⟨(rstripChars ("ab c".toList.filter
        (fun c => c.isAlphanum || c == ' ' || c == '_' || c == '-'))).take 30⟩ ++ ".db.gz" ∧
    (spaceToUnderscore (pythonSafeDesc "ab c")).toList.length ≤ 30 :=
  ⟨by decide, (C9_sanitized_description 5 "ab c" (by decide)).1,
   (C9_sanitized_description 5 "ab c" (by decide)).2.1⟩
